import Mathlib

/-!
Verification development for the `geth-semantic` repository: a shallow
embedding of the `random` stateful precompile (`random.go`), the
`randomPRNG` legacy precompile variant, and the `contract.StateDB`
capability interface, together with proofs settling the frozen claims.

Bytes are modelled as `List Nat` (each entry intended `< 256`); machine
integers are `Nat` with explicit `% 2 ^ w` where the Go code truncates.
The cryptographic primitives the source calls (`crypto/sha256`,
`crypto/hmac` from the Go standard library and `crypto.Keccak256` from
go-ethereum) are embedded executably and faithfully to their standards
(FIPS 180-4, RFC 2104, the original Keccak submission as used by
Ethereum), so that concrete digests can be evaluated by the kernel.
-/

/-- Big-endian encoding of `v` in exactly `n` bytes (value taken mod `256 ^ n`).
This is the byte layout produced by Go's `common.BigToHash(...).Bytes()`
when `n = 32` (left-padded, truncated to the low 32 bytes). -/
def beBytes : Nat → Nat → List Nat
  | 0, _ => []
  | n + 1, v => beBytes n (v / 256) ++ [v % 256]

/-- Big-endian interpretation of a byte list as an unsigned integer:
Go's `new(big.Int).SetBytes(input)`. -/
def bytesToNat (l : List Nat) : Nat := l.foldl (fun a b => a * 256 + b) 0

/-- Little-endian interpretation of a byte list (used for Keccak lanes). -/
def leBytesToNat (l : List Nat) : Nat := l.foldr (fun b a => a * 256 + b) 0

/-- Little-endian encoding of `v` in exactly `n` bytes. -/
def leBytes : Nat → Nat → List Nat
  | 0, _ => []
  | n + 1, v => v % 256 :: leBytes n (v / 256)

/-- Right rotation of a 32-bit word. -/
def ror32 (x n : Nat) : Nat := ((x >>> n) ||| (x <<< (32 - n))) % 4294967296

/-- Left rotation of a 64-bit word. -/
def rotl64 (x n : Nat) : Nat := ((x <<< n) ||| (x >>> (64 - n))) % 18446744073709551616

/-! ### SHA-256 (FIPS 180-4), as called by the source through `crypto/sha256` -/

/-- The 64 SHA-256 round constants (decimal values of the FIPS 180-4 table). -/
def sha256K : List Nat :=
  [1116352408, 1899447441, 3049323471, 3921009573, 961987163, 1508970993,
   2453635748, 2870763221, 3624381080, 310598401, 607225278, 1426881987,
   1925078388, 2162078206, 2614888103, 3248222580, 3835390401, 4022224774,
   264347078, 604807628, 770255983, 1249150122, 1555081692, 1996064986,
   2554220882, 2821834349, 2952996808, 3210313671, 3336571891, 3584528711,
   113926993, 338241895, 666307205, 773529912, 1294757372, 1396182291,
   1695183700, 1986661051, 2177026350, 2456956037, 2730485921, 2820302411,
   3259730800, 3345764771, 3516065817, 3600352804, 4094571909, 275423344,
   430227734, 506948616, 659060556, 883997877, 958139571, 1322822218,
   1537002063, 1747873779, 1955562222, 2024104815, 2227730452, 2361852424,
   2428436474, 2756734187, 3204031479, 3329325298]

/-- The SHA-256 initial hash value (decimal). -/
def sha256H0 : List Nat :=
  [1779033703, 3144134277, 1013904242, 2773480762,
   1359893119, 2600822924, 528734635, 1541459225]

/-- Group bytes into big-endian 32-bit words. -/
def bytesToWords32 : List Nat → List Nat
  | a :: b :: c :: d :: rest => (((a * 256 + b) * 256 + c) * 256 + d) :: bytesToWords32 rest
  | _ => []

/-- The eight working variables of the SHA-256 compression loop. -/
structure Sha256State where
  a : Nat
  b : Nat
  c : Nat
  d : Nat
  e : Nat
  f : Nat
  g : Nat
  h : Nat

/-- One SHA-256 compression round with key-schedule pair `kw`. -/
def sha256Round (st : Sha256State) (kw : Nat × Nat) : Sha256State :=
  let bigS1 := (ror32 st.e 6) ^^^ (ror32 st.e 11) ^^^ (ror32 st.e 25)
  let ch := (st.e &&& st.f) ^^^ ((4294967295 ^^^ st.e) &&& st.g)
  let t1 := (st.h + bigS1 + ch + kw.1 + kw.2) % 4294967296
  let bigS0 := (ror32 st.a 2) ^^^ (ror32 st.a 13) ^^^ (ror32 st.a 22)
  let mj := (st.a &&& st.b) ^^^ (st.a &&& st.c) ^^^ (st.b &&& st.c)
  let t2 := (bigS0 + mj) % 4294967296
  ⟨(t1 + t2) % 4294967296, st.a, st.b, st.c, (st.d + t1) % 4294967296, st.e, st.f, st.g⟩

/-- Generate `k` further message-schedule words from a sliding window whose
head is `w[j-16]`: each new word is
`w[j-16] + s0(w[j-15]) + w[j-7] + s1(w[j-2])` mod `2 ^ 32`. -/
def sha256Sched : Nat → List Nat → List Nat
  | 0, _ => []
  | k + 1, w0 :: w1 :: w2 :: w3 :: w4 :: w5 :: w6 :: w7 :: w8 :: w9 :: w10 :: w11 :: w12 :: w13 :: w14 :: w15 :: _ =>
      let s0 := (ror32 w1 7) ^^^ (ror32 w1 18) ^^^ (w1 >>> 3)
      let s1 := (ror32 w14 17) ^^^ (ror32 w14 19) ^^^ (w14 >>> 10)
      let nw := (w0 + s0 + w9 + s1) % 4294967296
      nw :: sha256Sched k [w1, w2, w3, w4, w5, w6, w7, w8, w9, w10, w11, w12, w13, w14, w15, nw]
  | _ + 1, _ => []

/-- Compress one 64-byte block into the running hash value. -/
def sha256Compress (h : List Nat) (block : List Nat) : List Nat :=
  let w0 := bytesToWords32 block
  let w := w0 ++ sha256Sched 48 w0
  match h with
  | [h0, h1, h2, h3, h4, h5, h6, h7] =>
      let st := (sha256K.zip w).foldl sha256Round ⟨h0, h1, h2, h3, h4, h5, h6, h7⟩
      [(h0 + st.a) % 4294967296, (h1 + st.b) % 4294967296, (h2 + st.c) % 4294967296,
       (h3 + st.d) % 4294967296, (h4 + st.e) % 4294967296, (h5 + st.f) % 4294967296,
       (h6 + st.g) % 4294967296, (h7 + st.h) % 4294967296]
  | _ => []

/-- SHA-256 padding: append 0x80, zero bytes, then the 64-bit bit length. -/
def sha256Pad (msg : List Nat) : List Nat :=
  let l := msg.length
  let padLen := (64 - (l + 9) % 64) % 64
  msg ++ [128] ++ List.replicate padLen 0 ++ beBytes 8 (8 * l)

/-- Fold the compression function over `k` consecutive 64-byte blocks. -/
def sha256Blocks (h data : List Nat) : Nat → List Nat
  | 0 => h
  | k + 1 => sha256Blocks (sha256Compress h (data.take 64)) (data.drop 64) k

/-- SHA-256 digest (32 bytes) of a byte message. -/
def sha256 (msg : List Nat) : List Nat :=
  let padded := sha256Pad msg
  let hh := sha256Blocks sha256H0 padded (padded.length / 64)
  (hh.map (beBytes 4)).flatten

/-- HMAC-SHA256 (RFC 2104): the construction `hmac.New(sha256.New, key)`
followed by `Write`s of the message and `Sum`. -/
def hmacSha256 (key msg : List Nat) : List Nat :=
  let k := if 64 < key.length then sha256 key else key
  let k0 := k ++ List.replicate (64 - k.length) 0
  let ipad := k0.map fun b => b ^^^ 54
  let opad := k0.map fun b => b ^^^ 92
  sha256 (opad ++ sha256 (ipad ++ msg))

/-! ### Keccak-256 with the original Keccak padding, as in `crypto.Keccak256` -/

/-- The 24 Keccak-f[1600] round constants (decimal). -/
def keccakRC : List Nat :=
  [1, 32898, 9223372036854808714,
   9223372039002292224, 32907, 2147483649,
   9223372039002292353, 9223372036854808585, 138,
   136, 2147516425, 2147483658,
   2147516555, 9223372036854775947, 9223372036854808713,
   9223372036854808579, 9223372036854808578, 9223372036854775936,
   32778, 9223372039002259466, 9223372039002292353,
   9223372036854808704, 2147483649, 9223372039002292232]

/-- The 25-lane Keccak-f[1600] state; field `xi` holds the lane at index `i = x + 5 * y`. -/
structure KState where
  x0 : Nat
  x1 : Nat
  x2 : Nat
  x3 : Nat
  x4 : Nat
  x5 : Nat
  x6 : Nat
  x7 : Nat
  x8 : Nat
  x9 : Nat
  x10 : Nat
  x11 : Nat
  x12 : Nat
  x13 : Nat
  x14 : Nat
  x15 : Nat
  x16 : Nat
  x17 : Nat
  x18 : Nat
  x19 : Nat
  x20 : Nat
  x21 : Nat
  x22 : Nat
  x23 : Nat
  x24 : Nat

/-- One Keccak-f round: θ, ρ, π, χ, then ι with round constant `rc`. -/
def keccakRound (A : KState) (rc : Nat) : KState :=
  let c0 := A.x0 ^^^ A.x5 ^^^ A.x10 ^^^ A.x15 ^^^ A.x20
  let c1 := A.x1 ^^^ A.x6 ^^^ A.x11 ^^^ A.x16 ^^^ A.x21
  let c2 := A.x2 ^^^ A.x7 ^^^ A.x12 ^^^ A.x17 ^^^ A.x22
  let c3 := A.x3 ^^^ A.x8 ^^^ A.x13 ^^^ A.x18 ^^^ A.x23
  let c4 := A.x4 ^^^ A.x9 ^^^ A.x14 ^^^ A.x19 ^^^ A.x24
  let d0 := c4 ^^^ rotl64 c1 1
  let d1 := c0 ^^^ rotl64 c2 1
  let d2 := c1 ^^^ rotl64 c3 1
  let d3 := c2 ^^^ rotl64 c4 1
  let d4 := c3 ^^^ rotl64 c0 1
  let t0 := A.x0 ^^^ d0
  let t1 := A.x1 ^^^ d1
  let t2 := A.x2 ^^^ d2
  let t3 := A.x3 ^^^ d3
  let t4 := A.x4 ^^^ d4
  let t5 := A.x5 ^^^ d0
  let t6 := A.x6 ^^^ d1
  let t7 := A.x7 ^^^ d2
  let t8 := A.x8 ^^^ d3
  let t9 := A.x9 ^^^ d4
  let t10 := A.x10 ^^^ d0
  let t11 := A.x11 ^^^ d1
  let t12 := A.x12 ^^^ d2
  let t13 := A.x13 ^^^ d3
  let t14 := A.x14 ^^^ d4
  let t15 := A.x15 ^^^ d0
  let t16 := A.x16 ^^^ d1
  let t17 := A.x17 ^^^ d2
  let t18 := A.x18 ^^^ d3
  let t19 := A.x19 ^^^ d4
  let t20 := A.x20 ^^^ d0
  let t21 := A.x21 ^^^ d1
  let t22 := A.x22 ^^^ d2
  let t23 := A.x23 ^^^ d3
  let t24 := A.x24 ^^^ d4
  let b0 := rotl64 t0 0
  let b5 := rotl64 t3 28
  let b10 := rotl64 t1 1
  let b15 := rotl64 t4 27
  let b20 := rotl64 t2 62
  let b1 := rotl64 t6 44
  let b6 := rotl64 t9 20
  let b11 := rotl64 t7 6
  let b16 := rotl64 t5 36
  let b21 := rotl64 t8 55
  let b2 := rotl64 t12 43
  let b7 := rotl64 t10 3
  let b12 := rotl64 t13 25
  let b17 := rotl64 t11 10
  let b22 := rotl64 t14 39
  let b3 := rotl64 t18 21
  let b8 := rotl64 t16 45
  let b13 := rotl64 t19 8
  let b18 := rotl64 t17 15
  let b23 := rotl64 t15 41
  let b4 := rotl64 t24 14
  let b9 := rotl64 t22 61
  let b14 := rotl64 t20 18
  let b19 := rotl64 t23 56
  let b24 := rotl64 t21 2
  let e0 := b0 ^^^ ((18446744073709551615 ^^^ b1) &&& b2)
  let e1 := b1 ^^^ ((18446744073709551615 ^^^ b2) &&& b3)
  let e2 := b2 ^^^ ((18446744073709551615 ^^^ b3) &&& b4)
  let e3 := b3 ^^^ ((18446744073709551615 ^^^ b4) &&& b0)
  let e4 := b4 ^^^ ((18446744073709551615 ^^^ b0) &&& b1)
  let e5 := b5 ^^^ ((18446744073709551615 ^^^ b6) &&& b7)
  let e6 := b6 ^^^ ((18446744073709551615 ^^^ b7) &&& b8)
  let e7 := b7 ^^^ ((18446744073709551615 ^^^ b8) &&& b9)
  let e8 := b8 ^^^ ((18446744073709551615 ^^^ b9) &&& b5)
  let e9 := b9 ^^^ ((18446744073709551615 ^^^ b5) &&& b6)
  let e10 := b10 ^^^ ((18446744073709551615 ^^^ b11) &&& b12)
  let e11 := b11 ^^^ ((18446744073709551615 ^^^ b12) &&& b13)
  let e12 := b12 ^^^ ((18446744073709551615 ^^^ b13) &&& b14)
  let e13 := b13 ^^^ ((18446744073709551615 ^^^ b14) &&& b10)
  let e14 := b14 ^^^ ((18446744073709551615 ^^^ b10) &&& b11)
  let e15 := b15 ^^^ ((18446744073709551615 ^^^ b16) &&& b17)
  let e16 := b16 ^^^ ((18446744073709551615 ^^^ b17) &&& b18)
  let e17 := b17 ^^^ ((18446744073709551615 ^^^ b18) &&& b19)
  let e18 := b18 ^^^ ((18446744073709551615 ^^^ b19) &&& b15)
  let e19 := b19 ^^^ ((18446744073709551615 ^^^ b15) &&& b16)
  let e20 := b20 ^^^ ((18446744073709551615 ^^^ b21) &&& b22)
  let e21 := b21 ^^^ ((18446744073709551615 ^^^ b22) &&& b23)
  let e22 := b22 ^^^ ((18446744073709551615 ^^^ b23) &&& b24)
  let e23 := b23 ^^^ ((18446744073709551615 ^^^ b24) &&& b20)
  let e24 := b24 ^^^ ((18446744073709551615 ^^^ b20) &&& b21)
  ⟨e0 ^^^ rc, e1, e2, e3, e4, e5, e6, e7, e8, e9, e10, e11, e12, e13, e14, e15, e16, e17, e18, e19, e20, e21, e22, e23, e24⟩

/-- The Keccak-f[1600] permutation (24 rounds). -/
def keccakF (A : KState) : KState := keccakRC.foldl keccakRound A

/-- Read lane `j` of a 136-byte rate block (little-endian per lane). -/
def laneAt (block : List Nat) (j : Nat) : Nat := leBytesToNat ((block.drop (8 * j)).take 8)

/-- Absorb one 136-byte block: xor the 17 rate lanes into the state, then
permute. -/
def keccakAbsorbBlock (A : KState) (block : List Nat) : KState :=
  keccakF ⟨A.x0 ^^^ laneAt block 0, A.x1 ^^^ laneAt block 1, A.x2 ^^^ laneAt block 2,
    A.x3 ^^^ laneAt block 3, A.x4 ^^^ laneAt block 4, A.x5 ^^^ laneAt block 5,
    A.x6 ^^^ laneAt block 6, A.x7 ^^^ laneAt block 7, A.x8 ^^^ laneAt block 8,
    A.x9 ^^^ laneAt block 9, A.x10 ^^^ laneAt block 10, A.x11 ^^^ laneAt block 11,
    A.x12 ^^^ laneAt block 12, A.x13 ^^^ laneAt block 13, A.x14 ^^^ laneAt block 14,
    A.x15 ^^^ laneAt block 15, A.x16 ^^^ laneAt block 16, A.x17, A.x18, A.x19,
    A.x20, A.x21, A.x22, A.x23, A.x24⟩

/-- Original Keccak multi-rate padding at rate 136 (pad bytes 0x01 … 0x80). -/
def keccakPad (msg : List Nat) : List Nat :=
  let q := 136 - msg.length % 136
  if q = 1 then msg ++ [129]
  else msg ++ [1] ++ List.replicate (q - 2) 0 ++ [128]

/-- Absorb `k` consecutive 136-byte blocks. -/
def keccakAbsorb (A : KState) (data : List Nat) : Nat → KState
  | 0 => A
  | k + 1 => keccakAbsorb (keccakAbsorbBlock A (data.take 136)) (data.drop 136) k

/-- The all-zero initial Keccak state. -/
def keccakInit : KState :=
  ⟨0, 0, 0, 0, 0, 0, 0, 0, 0, 0, 0, 0, 0, 0, 0, 0, 0, 0, 0, 0, 0, 0, 0, 0, 0⟩

/-- Keccak-256 digest (32 bytes): go-ethereum's `crypto.Keccak256`. -/
def keccak256 (msg : List Nat) : List Nat :=
  let padded := keccakPad msg
  let A := keccakAbsorb keccakInit padded (padded.length / 136)
  leBytes 8 A.x0 ++ leBytes 8 A.x1 ++ leBytes 8 A.x2 ++ leBytes 8 A.x3

/-! ### The `contract.StateDB` capability interface (`interface.go`) -/

/-- Model of the state behind the `contract.StateDB` interface: per-address
nonce, balance, storage mapping, existence flag, plus logs, predicate
storage slots, the transaction hash and the snapshot stack depth.
Addresses are 20-byte lists; storage keys and 32-byte values are `Nat`. -/
structure StateDB where
  storage : List Nat → Nat → Nat
  nonces : List Nat → Nat
  balances : List Nat → Nat
  accountExists : List Nat → Bool
  logs : List (List Nat × List Nat × List Nat × Nat)
  predicateSlots : List Nat → List (List Nat)
  txHash : Nat
  snapshotDepth : Nat

/-- One invocation of a method of the `contract.StateDB` interface, with
the arguments that identify what was touched. -/
inductive StateOp where
  | getStateOp (addr : List Nat) (key : Nat)
  | setStateOp (addr : List Nat) (key : Nat) (value : Nat)
  | setNonceOp (addr : List Nat) (nonce : Nat)
  | getNonceOp (addr : List Nat)
  | getBalanceOp (addr : List Nat)
  | addBalanceOp (addr : List Nat) (amount : Nat)
  | createAccountOp (addr : List Nat)
  | existOp (addr : List Nat)
  | addLogOp (addr : List Nat)
  | getLogDataOp
  | getPredicateStorageSlotsOp (addr : List Nat) (index : Nat)
  | setPredicateStorageSlotsOp (addr : List Nat)
  | getTxHashOp
  | snapshotOp
  | revertToSnapshotOp (id : Nat)
deriving DecidableEq

/-- Whether a `StateDB` method mutates state (as opposed to a pure read). -/
def StateOp.isMutating : StateOp → Bool
  | .setStateOp _ _ _ => true
  | .setNonceOp _ _ => true
  | .addBalanceOp _ _ => true
  | .createAccountOp _ => true
  | .addLogOp _ => true
  | .setPredicateStorageSlotsOp _ => true
  | .snapshotOp => true
  | .revertToSnapshotOp _ => true
  | _ => false

/-! ### The `random` precompile (`random.go`) -/

/-- Errors returned by the embedded precompiles. `invalidInputLength` is
`errInvalidInputLength`, `nOverflowsUint256` is the
`errors.New("n overflows uint256")` branch, `outOfGas` is the gas error
from `contract.DeductGas`, and `missingSelector` is the
`"Function selector is missing"` error of the `randomPRNG` variant. -/
inductive Err where
  | outOfGas
  | invalidInputLength
  | nOverflowsUint256
  | missingSelector
deriving DecidableEq

/-- `RandomNCSPRNGGasCost = 1024` from `random.go`. -/
def RandomNCSPRNGGasCost : Nat := 1024

/-- Modelled from the spec: `contract.DeductGas` is called by
`RandomNCSPRNGFunc` but its body is not under src (only the caller is).
Spec §4.2: returns `OutOfGas` if `supplied < cost`; otherwise returns
`supplied - cost`. -/
def DeductGas (supplied cost : Nat) : Except Err Nat :=
  if supplied < cost then .error .outOfGas else .ok (supplied - cost)

/-- `UnpackRandomNCSPRNGInput`: rejects any input whose length is not
exactly 32 bytes, otherwise reads a big-endian `big.Int`. -/
def UnpackRandomNCSPRNGInput (input : List Nat) : Except Err Nat :=
  if input.length ≠ 32 then .error .invalidInputLength
  else .ok (bytesToNat input)

/-- `PackRandomNCSPRNGOutput`: ABI encoding of the `uint256[]` return value
(offset word 0x20, length word, then each element as a 32-byte big-endian
word), as produced by the go-ethereum abi package for this ABI. -/
def PackRandomNCSPRNGOutput (values : List Nat) : List Nat :=
  beBytes 32 32 ++ beBytes 32 values.length ++ (values.map (beBytes 32)).flatten

/-- `generateRandomNCSPRNG` from `random.go`:
`serverSeed = Keccak256(precompileAddr)`,
`userSeed = Keccak256(userAddr ++ serverSeed)`,
`nonce = state.GetNonce(userAddr)`, then for each
`i < n.Uint64()` (the low 64 bits of the `uint256` count) the value is
`HMAC-SHA256(serverSeed, userSeed ++ BigToHash(nonce) ++ BigToHash(i))`
read as a big-endian integer, where `BigToHash` yields 32 bytes.
Besides the values we return the trace of `StateDB` method invocations
the Go body performs (exactly one `GetNonce`). The Go function's error
result is always `nil`, so it is omitted. -/
def generateRandomNCSPRNG (precompileAddr userAddr : List Nat) (n : Nat)
    (state : StateDB) : List Nat × List StateOp :=
  let serverSeed := keccak256 precompileAddr
  let userSeed := keccak256 (userAddr ++ serverSeed)
  let nonce := state.nonces userAddr
  let values := (List.range (n % 18446744073709551616)).map fun i =>
    bytesToNat (hmacSha256 serverSeed (userSeed ++ beBytes 32 nonce ++ beBytes 32 i))
  (values, [StateOp.getNonceOp userAddr])

/-- Result of one invocation of `RandomNCSPRNGFunc`: the Go triple
`(ret, remainingGas, err)` together with the final `StateDB` and the trace
of `StateDB` methods invoked during the call. -/
structure RunResult where
  ret : Option (List Nat)
  remainingGas : Nat
  err : Option Err
  finalState : StateDB
  trace : List StateOp

/-- `RandomNCSPRNGFunc` from `random.go`: deduct the fixed gas cost, decode
the 32-byte count, check `uint256.FromBig` overflow (true iff the decoded
count is `≥ 2 ^ 256`), generate, and pack. The `readOnly` flag is ignored
by the Go body. -/
def RandomNCSPRNGFunc (state : StateDB) (caller addr input : List Nat)
    (suppliedGas : Nat) (readOnly : Bool) : RunResult :=
  match DeductGas suppliedGas RandomNCSPRNGGasCost with
  | .error e => ⟨none, 0, some e, state, []⟩
  | .ok remainingGas =>
    match UnpackRandomNCSPRNGInput input with
    | .error e => ⟨none, remainingGas, some e, state, []⟩
    | .ok n =>
      if 2 ^ 256 ≤ n then
        ⟨none, remainingGas, some .nOverflowsUint256, state, []⟩
      else
        let out := generateRandomNCSPRNG addr caller n state
        ⟨some (PackRandomNCSPRNGOutput out.1), remainingGas, none, state, out.2⟩

/-! ### The legacy `randomPRNG` precompile (unnamed source file) -/

/-- `randomPRNG.RequiredGas` returns the constant 1024 for every input. -/
def randomPRNG.RequiredGas (input : List Nat) : Nat := 1024

/-- `getRandomNumber` seeds Go's `math/rand` with `blockNumber` and draws
one `Int63`. The draw `rand.New(rand.NewSource(int64(blockNumber))).Int63()`
comes from the Go standard library (external to this repository), so the
seed-to-draw map is abstracted as the parameter `int63`. -/
def getRandomNumber (int63 : Nat → Nat) (blockNumber : Nat) : Nat :=
  int63 blockNumber

/-- `packRandomPRNGOutput`: ABI encoding of a single `uint256` return. -/
def packRandomPRNGOutput (result : Nat) : List Nat := beBytes 32 result

/-- `randomPRNG.Run`: errors when the input is shorter than the 4-byte
selector; otherwise draws from `getRandomNumber` seeded with the current
wall-clock time (`time.Now().Unix()`, made explicit as the ambient
parameter `now`) and packs the result. -/
def randomPRNG.Run (int63 : Nat → Nat) (now : Nat) (input : List Nat) :
    Except Err (List Nat) :=
  if input.length < 4 then .error .missingSelector
  else .ok (packRandomPRNGOutput (getRandomNumber int63 now))

/-! ### The spec's wording of the generator algorithm (for refinement) -/

/-- The generator algorithm exactly as the spec words it (§4.4):
`serverSeed = Hash(contractAddress)`, `userSeed = Hash(callerAddress ++
serverSeed)`, and for `i` in `0 .. n-1`
`value_i = HMAC-SHA256(serverSeed, userSeed ++ encode_u64_be(nonce) ++
encode_u64_be(i))` with 8-byte big-endian encodings and exactly `n`
values. -/
def specGenerator (contractAddress callerAddress : List Nat) (nonce n : Nat) :
    List Nat :=
  let serverSeed := keccak256 contractAddress
  let userSeed := keccak256 (callerAddress ++ serverSeed)
  (List.range n).map fun i =>
    bytesToNat (hmacSha256 serverSeed (userSeed ++ beBytes 8 nonce ++ beBytes 8 i))

/-- The spec's algorithm amended to what the code computes: the nonce and
index are mixed in as 32-byte big-endian words (the `BigToHash`
conversion) rather than 8-byte ones. -/
def specGeneratorAmended (contractAddress callerAddress : List Nat)
    (nonce n : Nat) : List Nat :=
  let serverSeed := keccak256 contractAddress
  let userSeed := keccak256 (callerAddress ++ serverSeed)
  (List.range n).map fun i =>
    bytesToNat (hmacSha256 serverSeed (userSeed ++ beBytes 32 nonce ++ beBytes 32 i))

/-! ### Concrete fixtures used by counterexamples and witnesses -/

/-- A concrete 20-byte address (all zero bytes). -/
def addrA : List Nat := List.replicate 20 0

/-- A concrete 20-byte address (all bytes one). -/
def addrB : List Nat := List.replicate 20 1

/-- A concrete state whose every account nonce is `k`. -/
def stNonce (k : Nat) : StateDB :=
  ⟨fun _ _ => 0, fun _ => k, fun _ => 0, fun _ => false, [], fun _ => [], 0, 0⟩

/-- A concrete state agreeing with `stNonce 5` on nonces but differing in
storage and balances. -/
def stAlt : StateDB :=
  ⟨fun _ _ => 3, fun _ => 5, fun _ => 9, fun _ => true, [], fun _ => [], 1, 2⟩


/-! ### Arithmetic helper lemmas about the byte codecs -/

/-- Folding bytes below 256 into an accumulator stays below
`(acc + 1) * 256 ^ length`. -/
lemma foldlBytes_lt (l : List Nat) (acc : Nat) (h : ∀ b ∈ l, b < 256) :
    l.foldl (fun a b => a * 256 + b) acc < (acc + 1) * 256 ^ l.length := by
  induction l generalizing acc with
  | nil => simpa using Nat.lt_succ_self acc
  | cons b t ih =>
      have hb : b < 256 := h b (by simp)
      have ht : ∀ x ∈ t, x < 256 := fun x hx => h x (by simp [hx])
      have h1 := ih (acc * 256 + b) ht
      have h2 : (acc * 256 + b + 1) * 256 ^ t.length ≤ (acc + 1) * 256 ^ (t.length + 1) := by
        have hstep : acc * 256 + b + 1 ≤ (acc + 1) * 256 := by nlinarith
        calc (acc * 256 + b + 1) * 256 ^ t.length
            ≤ ((acc + 1) * 256) * 256 ^ t.length := Nat.mul_le_mul_right _ hstep
          _ = (acc + 1) * 256 ^ (t.length + 1) := by ring
      simp only [List.foldl_cons, List.length_cons]
      exact lt_of_lt_of_le h1 h2

/-- A byte list with entries below 256 decodes below `256 ^ length`. -/
lemma bytesToNat_lt (l : List Nat) (h : ∀ b ∈ l, b < 256) :
    bytesToNat l < 256 ^ l.length := by
  simpa [bytesToNat] using foldlBytes_lt l 0 h

/-- `256 ^ 32 = 2 ^ 256`. -/
lemma pow256_32 : (256 : Nat) ^ 32 = 2 ^ 256 := by norm_num

/-- Decoding after appending one byte shifts by 256. -/
lemma bytesToNat_append (l : List Nat) (b : Nat) :
    bytesToNat (l ++ [b]) = 256 * bytesToNat l + b := by
  simp [bytesToNat, List.foldl_append, Nat.mul_comm]

/-- Decoding a fixed-width big-endian encoding recovers the value mod
`256 ^ width`. -/
lemma bytesToNat_beBytes (n v : Nat) : bytesToNat (beBytes n v) = v % 256 ^ n := by
  induction n generalizing v with
  | zero => simp [beBytes, bytesToNat, Nat.mod_one]
  | succ n ih =>
      rw [beBytes, bytesToNat_append, ih, pow_succ,
        show (256 : Nat) ^ n * 256 = 256 * 256 ^ n from Nat.mul_comm _ _, Nat.mod_mul]
      omega

/-- The fixed-width big-endian encoding has exactly the requested width. -/
lemma length_beBytes (n v : Nat) : (beBytes n v).length = n := by
  induction n generalizing v with
  | zero => rfl
  | succ n ih => simp [beBytes, ih]

/-- `beBytes n` is injective on values below `256 ^ n`. -/
lemma beBytes_injOn {n a b : Nat} (ha : a < 256 ^ n) (hb : b < 256 ^ n)
    (h : beBytes n a = beBytes n b) : a = b := by
  have hcongr := congrArg bytesToNat h
  rwa [bytesToNat_beBytes, bytesToNat_beBytes, Nat.mod_eq_of_lt ha,
    Nat.mod_eq_of_lt hb] at hcongr

/-! ### Claims -/

set_option maxRecDepth 100000

set_option maxHeartbeats 2000000

/-- C1: false as the claim states it. At a concrete input the code's value
differs from the spec's algorithm with 8-byte big-endian encodings of the
nonce and index: the code feeds 32-byte `BigToHash` words into the HMAC
message instead. -/
theorem C1_counterexample :
    (generateRandomNCSPRNG addrA addrB 1 (stNonce 0)).1 ≠
      specGenerator addrA addrB ((stNonce 0).nonces addrB) 1 := by
  decide

/-- C1 (amended): for every count below `2 ^ 64` the generator produces
exactly the spec's algorithm with the 8-byte big-endian encodings of the
nonce and the index replaced by 32-byte big-endian encodings. -/
theorem C1_generator_follows_spec (contractAddress callerAddress : List Nat)
    (st : StateDB) (n : Nat) (h : n < 18446744073709551616) :
    (generateRandomNCSPRNG contractAddress callerAddress n st).1 =
      specGeneratorAmended contractAddress callerAddress (st.nonces callerAddress) n := by
  simp only [generateRandomNCSPRNG, specGeneratorAmended, Nat.mod_eq_of_lt h]

/-- C1 witness: the amended statement instantiated at a concrete input. -/
theorem C1_witness :
    1 < 18446744073709551616 ∧
      (generateRandomNCSPRNG addrA addrB 1 (stNonce 7)).1 =
        specGeneratorAmended addrA addrB ((stNonce 7).nonces addrB) 1 :=
  ⟨by decide, C1_generator_follows_spec addrA addrB (stNonce 7) 1 (by decide)⟩

/-- C2: `generateRandomNCSPRNG` is a pure function of
`(contractAddress, callerAddress, nonce, n)`: any two states that agree on
the caller's account nonce produce identical results (values and state
operation trace alike). -/
theorem C2_deterministic_pure (contractAddress callerAddress : List Nat)
    (n : Nat) (st st' : StateDB)
    (h : st.nonces callerAddress = st'.nonces callerAddress) :
    generateRandomNCSPRNG contractAddress callerAddress n st =
      generateRandomNCSPRNG contractAddress callerAddress n st' := by
  simp only [generateRandomNCSPRNG, h]

/-- C2 witness: two concrete states differing in storage, balances,
existence, transaction hash and snapshot depth but agreeing on nonces
produce the identical result. -/
theorem C2_witness :
    (stNonce 5).nonces addrB = stAlt.nonces addrB ∧
      generateRandomNCSPRNG addrA addrB 3 (stNonce 5) =
        generateRandomNCSPRNG addrA addrB 3 stAlt :=
  ⟨rfl, C2_deterministic_pure addrA addrB 3 (stNonce 5) stAlt rfl⟩

/-- C3: false as the claim states it: at `n = 2 ^ 64` (representable in
256 bits and accepted by decoding) the generator returns the empty
sequence, not `2 ^ 64` elements, because the loop bound is `n.Uint64()`. -/
theorem C3_counterexample :
    ((generateRandomNCSPRNG addrA addrB (2 ^ 64) (stNonce 0)).1).length ≠ 2 ^ 64 := by
  decide

/-- C3 (amended): the output sequence length equals the low 64 bits of
`n` (`n.Uint64()`), so it equals `n` exactly when `n < 2 ^ 64`; `n = 0`
yields the empty sequence and the function succeeds (it is total). -/
theorem C3_length (contractAddress callerAddress : List Nat) (st : StateDB) (n : Nat) :
    ((generateRandomNCSPRNG contractAddress callerAddress n st).1).length =
        n % 18446744073709551616 ∧
      (generateRandomNCSPRNG contractAddress callerAddress 0 st).1 = [] := by
  constructor
  · simp [generateRandomNCSPRNG]
  · simp [generateRandomNCSPRNG]

/-- C4: the required gas is the constant 1024 for every input; with a valid
32-byte input, supplying exactly 1024 gas succeeds with zero remaining
gas, while supplying 1023 fails with out-of-gas, performs no state
operation, and returns a result independent of the input (so it fails
before any decoding or generation work). -/
theorem C4_gas_boundary :
    (∀ input : List Nat, randomPRNG.RequiredGas input = 1024) ∧
    (∀ (st : StateDB) (caller addr input : List Nat) (ro : Bool),
        input.length = 32 → (∀ b ∈ input, b < 256) →
        (RandomNCSPRNGFunc st caller addr input 1024 ro).err = none ∧
          (RandomNCSPRNGFunc st caller addr input 1024 ro).remainingGas = 0) ∧
    (∀ (st : StateDB) (caller addr input input' : List Nat) (ro : Bool),
        (RandomNCSPRNGFunc st caller addr input 1023 ro).err = some .outOfGas ∧
          (RandomNCSPRNGFunc st caller addr input 1023 ro).trace = [] ∧
          RandomNCSPRNGFunc st caller addr input 1023 ro =
            RandomNCSPRNGFunc st caller addr input' 1023 ro) := by
  refine ⟨fun _ => rfl, ?_, ?_⟩
  · intro st caller addr input ro hlen hbytes
    have hn : ¬ 115792089237316195423570985008687907853269984665640564039457584007913129639936 ≤
        bytesToNat input := by
      rw [show (115792089237316195423570985008687907853269984665640564039457584007913129639936 :
        Nat) = 2 ^ 256 by norm_num, Nat.not_le]
      have hlt := bytesToNat_lt input hbytes
      rwa [hlen, pow256_32] at hlt
    simp [RandomNCSPRNGFunc, DeductGas, UnpackRandomNCSPRNGInput,
      RandomNCSPRNGGasCost, hlen, hn]
  · intro st caller addr input input' ro
    simp [RandomNCSPRNGFunc, DeductGas, RandomNCSPRNGGasCost]

/-- C4 witness: the gas boundary at a concrete all-zero 32-byte input. -/
theorem C4_witness :
    (RandomNCSPRNGFunc (stNonce 0) addrB addrA (List.replicate 32 0) 1024 false).err = none ∧
      (RandomNCSPRNGFunc (stNonce 0) addrB addrA (List.replicate 32 0) 1024 false).remainingGas = 0 :=
  C4_gas_boundary.2.1 (stNonce 0) addrB addrA (List.replicate 32 0) false (by decide) (by decide)

/-- C5: false as the claim states it: with the decoded count equal to
`2 ^ 256 - 1` (all input bytes 0xff) the call does not return the overflow
error — it proceeds to generation, as the nonce read in the trace shows. -/
theorem C5_counterexample :
    (RandomNCSPRNGFunc (stNonce 0) addrB addrA (List.replicate 32 255) 1024 false).err = none ∧
      (RandomNCSPRNGFunc (stNonce 0) addrB addrA (List.replicate 32 255) 1024 false).trace =
        [StateOp.getNonceOp addrB] :=
  ⟨rfl, rfl⟩

/-- C5 (amended): the overflow branch is unreachable: every input accepted
by decoding is exactly 32 bytes, so the decoded count is below `2 ^ 256`,
`uint256.FromBig` never reports overflow, and the call never returns the
overflow error (the maximal count is accepted and generation proceeds,
with the count truncated to its low 64 bits). -/
theorem C5_overflow_unreachable (st : StateDB) (caller addr input : List Nat)
    (gas : Nat) (ro : Bool) (hlen : input.length = 32)
    (hbytes : ∀ b ∈ input, b < 256) :
    (RandomNCSPRNGFunc st caller addr input gas ro).err ≠ some Err.nOverflowsUint256 := by
  have hn : ¬ 115792089237316195423570985008687907853269984665640564039457584007913129639936 ≤
      bytesToNat input := by
    rw [show (115792089237316195423570985008687907853269984665640564039457584007913129639936 :
      Nat) = 2 ^ 256 by norm_num, Nat.not_le]
    have hlt := bytesToNat_lt input hbytes
    rwa [hlen, pow256_32] at hlt
  by_cases hgas : gas < 1024
  · simp [RandomNCSPRNGFunc, DeductGas, RandomNCSPRNGGasCost, hgas]
  · simp [RandomNCSPRNGFunc, DeductGas, UnpackRandomNCSPRNGInput,
      RandomNCSPRNGGasCost, hgas, hlen, hn]

/-- C5 witness: the amended statement at the maximal 32-byte input. -/
theorem C5_witness :
    (List.replicate 32 255).length = 32 ∧
      (RandomNCSPRNGFunc (stNonce 3) addrB addrA (List.replicate 32 255) 2048 false).err ≠
        some Err.nOverflowsUint256 :=
  ⟨by decide, C5_overflow_unreachable (stNonce 3) addrB addrA (List.replicate 32 255) 2048 false
    (by decide) (by decide)⟩

/-- C6: `UnpackRandomNCSPRNGInput` rejects every payload shorter than 32
bytes with the invalid-input-length error; every payload of exactly 32
bytes succeeds and decodes as the big-endian unsigned integer, so the
32-byte big-endian encoding of any value below `2 ^ 256` round-trips. -/
theorem C6_unpack_validation :
    (∀ input : List Nat, input.length < 32 →
        UnpackRandomNCSPRNGInput input = .error .invalidInputLength) ∧
    (∀ input : List Nat, input.length = 32 →
        UnpackRandomNCSPRNGInput input = .ok (bytesToNat input)) ∧
    (∀ m : Nat, m < 2 ^ 256 → UnpackRandomNCSPRNGInput (beBytes 32 m) = .ok m) := by
  refine ⟨?_, ?_, ?_⟩
  · intro input h
    have hne : input.length ≠ 32 := by omega
    simp [UnpackRandomNCSPRNGInput, hne]
  · intro input h
    simp [UnpackRandomNCSPRNGInput, h]
  · intro m hm
    have hrt : bytesToNat (beBytes 32 m) = m := by
      rw [bytesToNat_beBytes, pow256_32, Nat.mod_eq_of_lt hm]
    simp [UnpackRandomNCSPRNGInput, length_beBytes, hrt]

/-- C6 witness: a short payload is rejected and a concrete value
round-trips. -/
theorem C6_witness :
    ([0, 1] : List Nat).length < 32 ∧
      UnpackRandomNCSPRNGInput [0, 1] = .error .invalidInputLength ∧
      UnpackRandomNCSPRNGInput (beBytes 32 77) = .ok 77 :=
  ⟨by decide, C6_unpack_validation.1 [0, 1] (by decide),
    C6_unpack_validation.2.2 77 (by decide)⟩

/-- C7 (supporting theorem for the defect): the output of `randomPRNG.Run`
is determined by — and injective in — the value drawn from the
wall-clock-seeded generator, not by the input alone: whenever the seeds
`t ≠ t'` lead to different draws, the two invocations with identical
input bytes return different outputs. -/
theorem C7_clock_dependence (int63 : Nat → Nat) (t t' : Nat) (input : List Nat)
    (hlen : 4 ≤ input.length) (h1 : int63 t < 2 ^ 256) (h2 : int63 t' < 2 ^ 256)
    (hne : int63 t ≠ int63 t') :
    randomPRNG.Run int63 t input ≠ randomPRNG.Run int63 t' input := by
  have hl : ¬ input.length < 4 := by omega
  simp only [randomPRNG.Run, if_neg hl, packRandomPRNGOutput, getRandomNumber]
  intro h
  apply hne
  have hinj := Except.ok.inj h
  exact beBytes_injOn (n := 32) (by rwa [pow256_32]) (by rwa [pow256_32]) hinj

/-- C7 witness: a concrete seed-sensitive draw function, two clock values
and a 4-byte input on which the outputs differ. -/
theorem C7_witness :
    4 ≤ ([0, 0, 0, 0] : List Nat).length ∧
      randomPRNG.Run (fun s => s) 1 [0, 0, 0, 0] ≠ randomPRNG.Run (fun s => s) 2 [0, 0, 0, 0] :=
  ⟨by decide, C7_clock_dependence (fun s => s) 1 2 [0, 0, 0, 0] (by decide) (by decide)
    (by decide) (by decide)⟩

/-- C8: every invocation of `RandomNCSPRNGFunc` — any input, gas and
read-only flag — leaves the `StateDB` unchanged, and every state
operation in its trace is the `GetNonce` read on the caller (so no
mutating interface method is ever invoked). -/
theorem C8_state_frame (st : StateDB) (caller addr input : List Nat)
    (gas : Nat) (ro : Bool) :
    (RandomNCSPRNGFunc st caller addr input gas ro).finalState = st ∧
      ∀ op ∈ (RandomNCSPRNGFunc st caller addr input gas ro).trace,
        op = StateOp.getNonceOp caller ∧ op.isMutating = false := by
  unfold RandomNCSPRNGFunc
  split
  · exact ⟨rfl, by simp⟩
  · split
    · exact ⟨rfl, by simp⟩
    · split
      · exact ⟨rfl, by simp⟩
      · refine ⟨rfl, ?_⟩
        intro op hop
        simp only [generateRandomNCSPRNG] at hop
        simp only [List.mem_singleton] at hop
        subst hop
        exact ⟨rfl, rfl⟩

/-- C8 witness: the frame property at a concrete invocation that reaches
generation (the trace contains the nonce read, which is non-mutating). -/
theorem C8_witness :
    (RandomNCSPRNGFunc (stNonce 0) addrB addrA (List.replicate 32 0) 1024 false).finalState =
        stNonce 0 ∧
      StateOp.getNonceOp addrB = StateOp.getNonceOp addrB ∧
      (StateOp.getNonceOp addrB).isMutating = false :=
  ⟨(C8_state_frame (stNonce 0) addrB addrA (List.replicate 32 0) 1024 false).1,
    (C8_state_frame (stNonce 0) addrB addrA (List.replicate 32 0) 1024 false).2
      (StateOp.getNonceOp addrB) (by decide)⟩

/-- C9: `randomPRNG.Run` returns the missing-selector error exactly for
payloads shorter than 4 bytes; with at least 4 bytes it never returns
that error. -/
theorem C9_selector_handling (int63 : Nat → Nat) (now : Nat) (input : List Nat) :
    (input.length < 4 → randomPRNG.Run int63 now input = .error .missingSelector) ∧
      (4 ≤ input.length → randomPRNG.Run int63 now input ≠ .error .missingSelector) := by
  constructor
  · intro h
    simp [randomPRNG.Run, h]
  · intro h
    have hl : ¬ input.length < 4 := by omega
    simp [randomPRNG.Run, hl]

/-- C9 witness: a 1-byte payload is rejected with the missing-selector
error, and a 4-byte payload is not. -/
theorem C9_witness :
    ([9] : List Nat).length < 4 ∧
      randomPRNG.Run (fun s => s) 0 [9] = .error .missingSelector ∧
      randomPRNG.Run (fun s => s) 0 [0, 0, 0, 0] ≠ .error .missingSelector :=
  ⟨by decide, (C9_selector_handling (fun s => s) 0 [9]).1 (by decide),
    (C9_selector_handling (fun s => s) 0 [0, 0, 0, 0]).2 (by decide)⟩

/-- C10: false as the claim states it: at `n = 0` the output sequence does
not change when the caller's account nonce changes (it is empty either
way). -/
theorem C10_counterexample :
    (stNonce 0).nonces addrB ≠ (stNonce 1).nonces addrB ∧
      (generateRandomNCSPRNG addrA addrB 0 (stNonce 0)).1 =
        (generateRandomNCSPRNG addrA addrB 0 (stNonce 1)).1 :=
  ⟨by decide, by simp [generateRandomNCSPRNG]⟩

/-- C10 (amended): the nonce mixed into the HMAC messages is the caller's
account nonce read from the state (the values depend on the state only
through `nonces caller`), and for a positive count changing that nonce
does change the output, verified at a concrete instance with `n = 1` and
nonces 0 and 1. -/
theorem C10_nonce_dependence :
    (∀ (contractAddress callerAddress : List Nat) (n : Nat) (st st' : StateDB),
        st.nonces callerAddress = st'.nonces callerAddress →
        (generateRandomNCSPRNG contractAddress callerAddress n st).1 =
          (generateRandomNCSPRNG contractAddress callerAddress n st').1) ∧
      (generateRandomNCSPRNG addrA addrB 1 (stNonce 0)).1 ≠
        (generateRandomNCSPRNG addrA addrB 1 (stNonce 1)).1 := by
  constructor
  · intro contractAddress callerAddress n st st' h
    simp only [generateRandomNCSPRNG, h]
  · decide

/-- C10 witness: the nonce-dependence theorem applied at two concrete
states agreeing on nonces. -/
theorem C10_witness :
    (generateRandomNCSPRNG addrA addrB 2 (stNonce 5)).1 =
      (generateRandomNCSPRNG addrA addrB 2 stAlt).1 :=
  C10_nonce_dependence.1 addrA addrB 2 (stNonce 5) stAlt rfl
